import Mathlib

/-
Verification of the room-inventory reservation engine of the hotel-booking
backend (source: src/app.py, endpoints availability and book, plus the
pydantic input model BookIn).

Embedding conventions:
* Dates are TEXT columns holding ISO yyyy-mm-dd strings; SQLite compares them
  with binary collation, which on equal-length ISO dates coincides with
  chronological order.  We embed dates as Nat, preserving exactly the
  comparison structure the SQL uses (date >= ?, date < ?, date <= ?).
* price is a REAL column; it is never computed with, only copied, so we embed
  it as Rat (0.0 in the demo branch becomes 0).
* left and quantity are INTEGER columns / fields; we embed them as Int.
* The room_inventory table is a list of rows; the schema constraint
  UNIQUE(room_type_id, date) becomes the hypothesis invKeysNodup where a
  proof needs it.
* book runs inside a single sqlite3 connection context (with get_db() as c:).
  Python sqlite3 connection context managers commit on normal exit and roll
  back the open transaction when an exception escapes; the UPDATE statements
  open an implicit transaction, so every raise HTTPException inside the block
  leaves the database exactly as it was before the request.  We model this by
  returning the original state together with the error result.
* HTTP error responses are embedded as constructors of BookResult; the
  pydantic validation of BookIn.quantity (Field(1, ge=1, le=10)), which runs
  before the handler body, is modelled by pydanticValid / bookEndpoint.
* The ORDER BY date ASC clauses only order the returned rows; the handlers
  build dicts keyed by date (unique per room type), so the resulting mapping
  is order-independent and we model it as the association list of matching
  rows in table order.
-/

/-- One row of the room_inventory table:
(room_type_id INTEGER, date TEXT, price REAL, left INTEGER),
UNIQUE(room_type_id, date). -/
structure InvRow where
  room_type_id : Nat
  date : Nat
  price : Rat
  left : Int
deriving DecidableEq

/-- One row of the bookings table as written by the book endpoint
(the INSERT supplies room_type_id, check_in, check_out, name, email, phone,
notes, quantity; id and created_at are storage-assigned and not modelled). -/
structure BookingRow where
  room_type_id : Nat
  check_in : Nat
  check_out : Nat
  name : String
  email : Option String
  phone : Option String
  notes : Option String
  quantity : Int
deriving DecidableEq

/-- The mutable database state the hotel endpoints touch. -/
structure DB where
  room_inventory : List InvRow
  bookings : List BookingRow
deriving DecidableEq

/-- The schema constraint UNIQUE(room_type_id, date) on room_inventory. -/
def DB.invKeysNodup (db : DB) : Prop :=
  (db.room_inventory.map fun r => (r.room_type_id, r.date)).Nodup

instance (db : DB) : Decidable db.invKeysNodup := by
  unfold DB.invKeysNodup; infer_instance

/-- The request body of POST /book (pydantic model BookIn). -/
structure BookIn where
  room_type : Nat
  check_in : Nat
  check_out : Nat
  name : String
  email : Option String
  phone : Option String
  notes : Option String
  quantity : Int
deriving DecidableEq

/-- quantity: int = Field(1, ge=1, le=10) — pydantic rejects the request with
a 422 validation error, before the handler body runs, unless
1 <= quantity <= 10. -/
def BookIn.pydanticValid (p : BookIn) : Bool :=
  decide (1 ≤ p.quantity) && decide (p.quantity ≤ 10)

/-- The inventory row belongs to the requested room type and its date is one
of the stay's nights, i.e. lies in the half-open interval
from check_in (inclusive) to check_out (exclusive). -/
def BookIn.covers (p : BookIn) (r : InvRow) : Prop :=
  r.room_type_id = p.room_type ∧ p.check_in ≤ r.date ∧ r.date < p.check_out

instance (p : BookIn) (r : InvRow) : Decidable (p.covers r) := by
  unfold BookIn.covers; infer_instance

/-- Outcome of a booking request, one constructor per exit of the handler:
ok — 200 booking committed; demoOk — 200 DEMO_MODE short-circuit;
invalidQuantity — 400 quantity must be at least 1; noInventory — 400
No inventory for selected dates; soldOut — 409 Range includes sold-out
dates; soldOutRace — 409 Just sold out while booking (guarded UPDATE hit
zero rows); validationError — 422 pydantic rejection of the payload. -/
inductive BookResult where
  | ok
  | demoOk
  | invalidQuantity
  | noInventory
  | soldOut
  | soldOutRace
  | validationError
deriving DecidableEq

/-- The range read in book:
SELECT date, left FROM room_inventory
WHERE room_type_id = ? AND date >= check_in AND date < check_out.
(We keep whole rows; the handler only uses date and left.) -/
def nightsQuery (db : DB) (rt ci co : Nat) : List InvRow :=
  db.room_inventory.filter fun r =>
    decide (r.room_type_id = rt ∧ ci ≤ r.date ∧ r.date < co)

/-- The guarded write in book:
UPDATE room_inventory SET left = left - ? WHERE room_type_id = ? AND
date = ? AND left >= ?.
Returns the updated table and the UPDATE rowcount. -/
def condDecrement (inv : List InvRow) (rt : Nat) (d : Nat) (qty : Int) :
    List InvRow × Nat :=
  ((inv.map fun r =>
      if r.room_type_id = rt ∧ r.date = d ∧ qty ≤ r.left then
        { r with left := r.left - qty }
      else r),
   (inv.filter fun r =>
      decide (r.room_type_id = rt ∧ r.date = d ∧ qty ≤ r.left)).length)

/-- The decrement loop of book: for each fetched night run the guarded
UPDATE; if any rowcount is 0 the handler raises (modelled as none, the
transaction is rolled back by the connection context manager). -/
def applyNights (rt : Nat) (qty : Int) :
    List InvRow → List InvRow → Option (List InvRow)
  | inv, [] => some inv
  | inv, n :: ns =>
      if (condDecrement inv rt n.date qty).2 = 0 then none
      else applyNights rt qty (condDecrement inv rt n.date qty).1 ns

/-- The bookings row inserted on success:
INSERT INTO bookings (room_type_id, check_in, check_out, name, email, phone,
notes, quantity) VALUES (?,?,?,?,?,?,?,?). -/
def mkBookingRow (p : BookIn) (qty : Int) : BookingRow :=
  { room_type_id := p.room_type, check_in := p.check_in,
    check_out := p.check_out, name := p.name, email := p.email,
    phone := p.phone, notes := p.notes, quantity := qty }

/-- The body of the book handler (src/app.py, def book).  demo is the
DEMO_MODE module flag.  On every error exit the raised HTTPException makes
the sqlite3 connection context roll back the open transaction, so the
returned state is the original db; on success the transaction commits. -/
def book (demo : Bool) (p : BookIn) (db : DB) : DB × BookResult :=
  if demo then (db, .demoOk)
  else
    let qty : Int := if p.quantity = 0 then 1 else p.quantity
    if qty < 1 then (db, .invalidQuantity)
    else
      let nights := nightsQuery db p.room_type p.check_in p.check_out
      if nights = [] then (db, .noInventory)
      else if nights.any fun r => decide (r.left < qty) then (db, .soldOut)
      else
        match applyNights p.room_type qty db.room_inventory nights with
        | none => (db, .soldOutRace)
        | some inv' =>
            ({ room_inventory := inv',
               bookings := db.bookings ++ [mkBookingRow p qty] }, .ok)

/-- POST /book as seen by a client: pydantic validates the payload, then the
handler body runs. -/
def bookEndpoint (demo : Bool) (p : BookIn) (db : DB) : DB × BookResult :=
  if p.pydanticValid then book demo p db else (db, .validationError)

/-- GET /availability (src/app.py, def availability).  demo is the DEMO_MODE
module flag.  Returns the (unchanged) state and the date -> (price, left)
mapping as an association list: in demo mode one fabricated entry per date
from start to end_ inclusive (the while d <= e loop), otherwise
SELECT date, price, left FROM room_inventory
WHERE room_type_id = ? AND date >= start AND date <= end. -/
def availability (demo : Bool) (db : DB) (room_type s e : Nat) :
    DB × List (Nat × Rat × Int) :=
  if demo then
    (db, (List.range' s (e + 1 - s)).map fun d => (d, ((0 : Rat), (99 : Int))))
  else
    (db, (db.room_inventory.filter fun r =>
            decide (r.room_type_id = room_type ∧ s ≤ r.date ∧ r.date ≤ e)).map
          fun r => (r.date, (r.price, r.left)))

/-! Helper lemmas about the decrement loop. -/

/-- Each guarded UPDATE keeps every left value non-negative: a row is only
decremented by qty when qty <= left still holds at write time. -/
lemma condDecrement_nonneg (inv : List InvRow) (rt d : Nat) (qty : Int)
    (h : ∀ r ∈ inv, 0 ≤ r.left) :
    ∀ r ∈ (condDecrement inv rt d qty).1, 0 ≤ r.left := by
  intro r hr
  simp only [condDecrement, List.mem_map] at hr
  obtain ⟨r0, hr0, rfl⟩ := hr
  by_cases hc : r0.room_type_id = rt ∧ r0.date = d ∧ qty ≤ r0.left
  · simp only [if_pos hc]
    omega
  · simp only [if_neg hc]
    exact h r0 hr0

/-- The whole decrement loop keeps every left value non-negative. -/
lemma applyNights_nonneg (rt : Nat) (qty : Int) :
    ∀ (ds inv inv' : List InvRow), (∀ r ∈ inv, 0 ≤ r.left) →
    applyNights rt qty inv ds = some inv' → ∀ r ∈ inv', 0 ≤ r.left := by
  intro ds
  induction ds with
  | nil =>
      intro inv inv' h heq
      simp only [applyNights, Option.some.injEq] at heq
      exact heq ▸ h
  | cons n ns ih =>
      intro inv inv' h heq
      rw [applyNights] at heq
      by_cases h0 : (condDecrement inv rt n.date qty).2 = 0
      · rw [if_pos h0] at heq; exact absurd heq (by simp)
      · rw [if_neg h0] at heq
        exact ih _ _ (condDecrement_nonneg inv rt n.date qty h) heq

/-- Within one room type, distinct (room_type_id, date) keys force distinct
dates. -/
lemma dates_nodup_of_keys_nodup (rt : Nat) :
    ∀ l : List InvRow,
    (l.map fun r => (r.room_type_id, r.date)).Nodup →
    (∀ r ∈ l, r.room_type_id = rt) →
    (l.map InvRow.date).Nodup := by
  intro l
  induction l with
  | nil => intro _ _; simp
  | cons r l ih =>
      intro hkeys hrt
      rw [List.map_cons, List.nodup_cons] at hkeys ⊢
      refine ⟨?_, ih hkeys.2 fun r' hr' => hrt r' (List.mem_cons_of_mem r hr')⟩
      intro hmem
      obtain ⟨r', hr', hdate⟩ := List.mem_map.mp hmem
      refine hkeys.1 (List.mem_map.mpr ⟨r', hr', ?_⟩)
      rw [hrt r' (List.mem_cons_of_mem r hr'), hrt r (List.mem_cons_self r l),
        hdate]

/-- If every listed night has a matching row with sufficient capacity, and
the inventory keys are unique, the decrement loop succeeds and is the
pointwise decrement of every row whose date occurs among the nights. -/
lemma applyNights_eq (rt : Nat) (qty : Int) :
    ∀ (ds inv : List InvRow),
    (inv.map fun r => (r.room_type_id, r.date)).Nodup →
    (ds.map InvRow.date).Nodup →
    (∀ n ∈ ds, ∃ r ∈ inv,
        r.room_type_id = rt ∧ r.date = n.date ∧ qty ≤ r.left) →
    applyNights rt qty inv ds =
      some (inv.map fun r =>
        if r.room_type_id = rt ∧ r.date ∈ ds.map InvRow.date then
          { r with left := r.left - qty }
        else r) := by
  intro ds
  induction ds with
  | nil =>
      intro inv _ _ _
      simp [applyNights]
  | cons n ns ih =>
      intro inv hkeys hdates hsub
      obtain ⟨r0, hr0, hrt0, hd0, hq0⟩ := hsub n (List.mem_cons_self n ns)
      rw [List.map_cons, List.nodup_cons] at hdates
      have hr0f : r0 ∈ inv.filter fun r =>
          decide (r.room_type_id = rt ∧ r.date = n.date ∧ qty ≤ r.left) :=
        List.mem_filter.mpr ⟨hr0, by simp [hrt0, hd0, hq0]⟩
      have hcnt : (condDecrement inv rt n.date qty).2 ≠ 0 := by
        simp only [condDecrement]
        rw [Ne, List.length_eq_zero]
        exact List.ne_nil_of_mem hr0f
      rw [applyNights, if_neg hcnt]
      have hkeys1 : ((condDecrement inv rt n.date qty).1.map
          fun r => (r.room_type_id, r.date)).Nodup := by
        have heq : ((condDecrement inv rt n.date qty).1.map
            fun r => (r.room_type_id, r.date)) =
            inv.map fun r => (r.room_type_id, r.date) := by
          simp only [condDecrement, List.map_map]
          refine List.map_congr_left fun a _ => ?_
          by_cases hc : a.room_type_id = rt ∧ a.date = n.date ∧ qty ≤ a.left <;>
            simp [hc]
        rw [heq]; exact hkeys
      have hsub1 : ∀ n' ∈ ns, ∃ r ∈ (condDecrement inv rt n.date qty).1,
          r.room_type_id = rt ∧ r.date = n'.date ∧ qty ≤ r.left := by
        intro n' hn'
        obtain ⟨r', hr', hrt', hd', hq'⟩ :=
          hsub n' (List.mem_cons_of_mem n hn')
        have hne : r'.date ≠ n.date := by
          rw [hd']
          intro hcontra
          exact hdates.1 (hcontra ▸ List.mem_map_of_mem InvRow.date hn')
        have hfix : (if r'.room_type_id = rt ∧ r'.date = n.date ∧
            qty ≤ r'.left then { r' with left := r'.left - qty } else r') =
            r' := by
          rw [if_neg]; intro hc; exact hne hc.2.1
        refine ⟨r', ?_, hrt', hd', hq'⟩
        simp only [condDecrement]
        exact hfix ▸ List.mem_map_of_mem _ hr'
      rw [ih _ hkeys1 hdates.2 hsub1]
      refine congrArg some ?_
      simp only [condDecrement, List.map_map]
      refine List.map_congr_left fun r hr => ?_
      by_cases hm : r.room_type_id = rt ∧ r.date = n.date ∧ qty ≤ r.left
      · have hnotin : r.date ∉ ns.map InvRow.date := hm.2.1 ▸ hdates.1
        simp only [Function.comp_apply, if_pos hm]
        rw [if_neg, if_pos]
        · exact ⟨hm.1, by rw [List.map_cons]; exact hm.2.1 ▸
            List.mem_cons_self n.date (ns.map InvRow.date)⟩
        · intro hc
          exact hnotin hc.2
      · simp only [Function.comp_apply, if_neg hm]
        by_cases hrt : r.room_type_id = rt
        · by_cases hdate : r.date = n.date
          · have hql : ¬ qty ≤ r.left := fun hq' => hm ⟨hrt, hdate, hq'⟩
            have : r0 = r := by
              refine List.inj_on_of_nodup_map hkeys hr0 hr ?_
              rw [hrt0, hd0, hrt, hdate]
            exact absurd (this ▸ hq0) hql
          · rw [List.map_cons]
            have hiff : r.date ∈ n.date :: ns.map InvRow.date ↔
                r.date ∈ ns.map InvRow.date := by
              rw [List.mem_cons]
              exact or_iff_right hdate
            exact if_congr (and_congr_right fun _ => hiff.symm) rfl rfl
        · rw [if_neg fun hc => hrt hc.1, if_neg fun hc => hrt hc.1]

/-- Unfolding of the handler body for DEMO_MODE disabled. -/
lemma book_false_def (p : BookIn) (db : DB) :
    book false p db =
      (if (if p.quantity = 0 then 1 else p.quantity) < 1 then
        (db, .invalidQuantity)
      else
        if nightsQuery db p.room_type p.check_in p.check_out = [] then
          (db, .noInventory)
        else if nightsQuery db p.room_type p.check_in p.check_out |>.any
            fun r => decide (r.left < if p.quantity = 0 then 1 else p.quantity)
          then (db, .soldOut)
        else
          match applyNights p.room_type
              (if p.quantity = 0 then 1 else p.quantity) db.room_inventory
              (nightsQuery db p.room_type p.check_in p.check_out) with
          | none => (db, .soldOutRace)
          | some inv' =>
              ({ room_inventory := inv',
                 bookings := db.bookings ++
                   [mkBookingRow p
                     (if p.quantity = 0 then 1 else p.quantity)] }, .ok)) :=
  rfl

/-- With a positive quantity the or-1 defaulting is the identity. -/
lemma book_false_pos_def (p : BookIn) (db : DB) (hq : 1 ≤ p.quantity) :
    book false p db =
      (if nightsQuery db p.room_type p.check_in p.check_out = [] then
        (db, .noInventory)
      else if nightsQuery db p.room_type p.check_in p.check_out |>.any
          fun r => decide (r.left < p.quantity) then (db, .soldOut)
      else
        match applyNights p.room_type p.quantity db.room_inventory
            (nightsQuery db p.room_type p.check_in p.check_out) with
        | none => (db, .soldOutRace)
        | some inv' =>
            ({ room_inventory := inv',
               bookings := db.bookings ++ [mkBookingRow p p.quantity] },
             .ok)) := by
  have h0 : ¬ p.quantity = 0 := by omega
  rw [book_false_def]
  simp only [if_neg h0]
  rw [if_neg (by omega : ¬ p.quantity < 1)]

/-- A row of the requested room type has its date among the fetched nights
exactly when the date lies in the half-open stay interval. -/
lemma mem_nights_dates_iff (db : DB) (rt ci co : Nat) (r : InvRow)
    (hr : r ∈ db.room_inventory) (hrt : r.room_type_id = rt) :
    r.date ∈ (nightsQuery db rt ci co).map InvRow.date ↔
      ci ≤ r.date ∧ r.date < co := by
  constructor
  · intro h
    obtain ⟨n, hn, hdate⟩ := List.mem_map.mp h
    have hc := of_decide_eq_true (List.mem_filter.mp hn).2
    exact hdate ▸ hc.2
  · intro h
    exact List.mem_map_of_mem _
      (List.mem_filter.mpr ⟨hr, decide_eq_true ⟨hrt, h.1, h.2⟩⟩)

/-- Characterization of a committed booking: the new inventory is the
pointwise decrement of exactly the requested room type's rows with dates in
the half-open interval, and the new booking row is appended. -/
lemma book_success_spec (p : BookIn) (db : DB) (hkeys : db.invKeysNodup)
    (hq : 1 ≤ p.quantity) (hok : (book false p db).2 = .ok) :
    book false p db =
      ({ room_inventory := db.room_inventory.map fun r =>
           if p.covers r then { r with left := r.left - p.quantity } else r,
         bookings := db.bookings ++ [mkBookingRow p p.quantity] }, .ok) := by
  rw [book_false_pos_def p db hq] at hok ⊢
  by_cases hnil : nightsQuery db p.room_type p.check_in p.check_out = []
  · rw [if_pos hnil] at hok; exact absurd hok (by simp)
  rw [if_neg hnil] at hok ⊢
  by_cases hany : nightsQuery db p.room_type p.check_in p.check_out |>.any
      fun r => decide (r.left < p.quantity)
  · rw [if_pos hany] at hok; exact absurd hok (by simp)
  rw [if_neg hany] at hok ⊢
  have hanyq : ∀ r ∈ nightsQuery db p.room_type p.check_in p.check_out,
      p.quantity ≤ r.left := by
    intro r hr
    by_contra hlt
    exact hany
      (List.any_eq_true.mpr ⟨r, hr, decide_eq_true (Int.not_le.mp hlt)⟩)
  have hksub : ((nightsQuery db p.room_type p.check_in p.check_out).map
      fun r => (r.room_type_id, r.date)).Nodup :=
    List.Nodup.sublist
      (List.Sublist.map _ (List.filter_sublist db.room_inventory)) hkeys
  have hrts : ∀ r ∈ nightsQuery db p.room_type p.check_in p.check_out,
      r.room_type_id = p.room_type := fun r hr =>
    (of_decide_eq_true (List.mem_filter.mp hr).2).1
  have hdnod := dates_nodup_of_keys_nodup p.room_type _ hksub hrts
  have hsub : ∀ n ∈ nightsQuery db p.room_type p.check_in p.check_out,
      ∃ r ∈ db.room_inventory, r.room_type_id = p.room_type ∧
        r.date = n.date ∧ p.quantity ≤ r.left := fun n hn =>
    ⟨n, (List.mem_filter.mp hn).1, hrts n hn, rfl, hanyq n hn⟩
  rw [applyNights_eq p.room_type p.quantity _ _ hkeys hdnod hsub]
  refine congrArg (fun l => (DB.mk l _, BookResult.ok)) ?_
  refine List.map_congr_left fun r hr => ?_
  by_cases hrt : r.room_type_id = p.room_type
  · exact if_congr (and_congr_right fun _ =>
      mem_nights_dates_iff db p.room_type p.check_in p.check_out r hr hrt) rfl
      rfl
  · rw [if_neg fun hc => hrt hc.1, if_neg fun hc => hrt hc.1]

/-- Unfolding of the availability handler for DEMO_MODE disabled. -/
lemma availability_false_def (db : DB) (rt s e : Nat) :
    availability false db rt s e =
      (db, (db.room_inventory.filter fun r =>
              decide (r.room_type_id = rt ∧ s ≤ r.date ∧ r.date ≤ e)).map
            fun r => (r.date, (r.price, r.left))) :=
  rfl

/-- Every run of the handler either leaves the state untouched, or commits:
the decrement loop succeeded and one booking row was appended. -/
lemma book_cases (mode : Bool) (p : BookIn) (db : DB) :
    (book mode p db).1 = db ∨
    ∃ inv',
      applyNights p.room_type (if p.quantity = 0 then 1 else p.quantity)
          db.room_inventory
          (nightsQuery db p.room_type p.check_in p.check_out) = some inv' ∧
      book mode p db =
        ({ room_inventory := inv',
           bookings := db.bookings ++
             [mkBookingRow p (if p.quantity = 0 then 1 else p.quantity)] },
         .ok) := by
  cases mode
  · rw [book_false_def]
    by_cases h1 : (if p.quantity = 0 then 1 else p.quantity) < 1
    · rw [if_pos h1]; exact Or.inl rfl
    rw [if_neg h1]
    by_cases h2 : nightsQuery db p.room_type p.check_in p.check_out = []
    · rw [if_pos h2]; exact Or.inl rfl
    rw [if_neg h2]
    by_cases h3 : ((nightsQuery db p.room_type p.check_in p.check_out).any
        fun r =>
          decide (r.left < if p.quantity = 0 then 1 else p.quantity)) = true
    · rw [if_pos h3]; exact Or.inl rfl
    rw [if_neg h3]
    cases happly : applyNights p.room_type
        (if p.quantity = 0 then 1 else p.quantity) db.room_inventory
        (nightsQuery db p.room_type p.check_in p.check_out) with
    | none => exact Or.inl rfl
    | some inv' => exact Or.inr ⟨inv', rfl, rfl⟩
  · exact Or.inl rfl

/-! Claim theorems. -/

/-- C1: every booking request that fails on any path (validation failure,
no inventory, sold-out pre-check, or a guarded per-night decrement hitting
zero rows after earlier nights were already decremented) returns with the
whole database — in particular every room_inventory row's left value —
exactly as it was before the request began. -/
theorem failed_booking_preserves_inventory (mode : Bool) (p : BookIn)
    (db : DB) (hfail : (bookEndpoint mode p db).2 ≠ BookResult.ok) :
    (bookEndpoint mode p db).1 = db := by
  unfold bookEndpoint at hfail ⊢
  by_cases hv : p.pydanticValid = true
  · rw [if_pos hv] at hfail ⊢
    rcases book_cases mode p db with hcase | ⟨inv', _, hcase⟩
    · exact hcase
    · rw [hcase] at hfail
      exact absurd rfl hfail
  · rw [if_neg hv]

/-- C1 witness: a request on an empty inventory fails and leaves the empty
database unchanged. -/
theorem failed_booking_preserves_inventory_witness :
    (bookEndpoint false (BookIn.mk 1 0 2 "guest" none none none 1)
        (DB.mk [] [])).2 ≠ BookResult.ok ∧
    (bookEndpoint false (BookIn.mk 1 0 2 "guest" none none none 1)
        (DB.mk [] [])).1 = DB.mk [] [] :=
  ⟨by decide, failed_booking_preserves_inventory false _ _ (by decide)⟩

/-- C4: when the range read returns at least one row and some returned night
has fewer rooms left than requested, the request is rejected with the
sold-out error and the database is returned unchanged, before any decrement
is attempted. -/
theorem soldout_precheck_rejects_whole_request (p : BookIn) (db : DB)
    (hq : 1 ≤ p.quantity)
    (hne : nightsQuery db p.room_type p.check_in p.check_out ≠ [])
    (hlow : ∃ r ∈ nightsQuery db p.room_type p.check_in p.check_out,
      r.left < p.quantity) :
    book false p db = (db, BookResult.soldOut) := by
  rw [book_false_pos_def p db hq, if_neg hne, if_pos]
  obtain ⟨r, hr, hlt⟩ := hlow
  exact List.any_eq_true.mpr ⟨r, hr, decide_eq_true hlt⟩

/-- C4 witness: one night with 5 rooms left cannot host a request for 7. -/
theorem soldout_precheck_rejects_whole_request_witness :
    (1 : Int) ≤ 7 ∧
    nightsQuery (DB.mk [InvRow.mk 1 0 800 5] []) 1 0 1 ≠ [] ∧
    (∃ r ∈ nightsQuery (DB.mk [InvRow.mk 1 0 800 5] []) 1 0 1,
      r.left < 7) ∧
    book false (BookIn.mk 1 0 1 "guest" none none none 7)
        (DB.mk [InvRow.mk 1 0 800 5] []) =
      (DB.mk [InvRow.mk 1 0 800 5] [], BookResult.soldOut) :=
  ⟨by decide, by decide, ⟨InvRow.mk 1 0 800 5, by decide, by decide⟩,
   soldout_precheck_rejects_whole_request _ _ (by decide) (by decide)
     ⟨InvRow.mk 1 0 800 5, by decide, by decide⟩⟩

/-- C8: non-negativity of every left value is an invariant of the booking
operation, whatever its outcome, because each per-night decrement is guarded
by left greater or equal quantity at write time. -/
theorem left_nonneg_invariant (mode : Bool) (p : BookIn) (db : DB)
    (h : ∀ r ∈ db.room_inventory, 0 ≤ r.left) :
    ∀ r ∈ (bookEndpoint mode p db).1.room_inventory, 0 ≤ r.left := by
  unfold bookEndpoint
  by_cases hv : p.pydanticValid = true
  · rw [if_pos hv]
    rcases book_cases mode p db with hcase | ⟨inv', happly, hcase⟩
    · rw [hcase]; exact h
    · rw [hcase]
      exact applyNights_nonneg p.room_type _ _ _ _ h happly
  · rw [if_neg hv]; exact h

/-- C8 witness: a committed booking keeps all left values non-negative. -/
theorem left_nonneg_invariant_witness :
    (∀ r ∈ (DB.mk [InvRow.mk 1 0 800 2] []).room_inventory, 0 ≤ r.left) ∧
    ∀ r ∈ (bookEndpoint false (BookIn.mk 1 0 1 "guest" none none none 2)
        (DB.mk [InvRow.mk 1 0 800 2] [])).1.room_inventory, 0 ≤ r.left :=
  ⟨by decide,
   left_nonneg_invariant false (BookIn.mk 1 0 1 "guest" none none none 2)
     (DB.mk [InvRow.mk 1 0 800 2] []) (by decide)⟩

/-- C10: the public interface rejects any request for more than 10 rooms at
pydantic validation, before the handler body (and hence any storage access)
runs, leaving the database untouched. -/
theorem quantity_upper_bound_enforced (mode : Bool) (p : BookIn) (db : DB)
    (h : 10 < p.quantity) :
    bookEndpoint mode p db = (db, BookResult.validationError) := by
  unfold bookEndpoint
  rw [if_neg]
  simp only [BookIn.pydanticValid, Bool.and_eq_true, decide_eq_true_eq]
  rintro ⟨-, h2⟩
  omega

/-- C10 witness: quantity 11 is rejected by validation. -/
theorem quantity_upper_bound_enforced_witness :
    (10 : Int) < 11 ∧
    bookEndpoint false (BookIn.mk 1 0 1 "guest" none none none 11)
        (DB.mk [InvRow.mk 1 0 800 99] []) =
      (DB.mk [InvRow.mk 1 0 800 99] [], BookResult.validationError) :=
  ⟨by decide, quantity_upper_bound_enforced false _ _ (by decide)⟩

/-- C2 counterexample: night 1 of the stay range has no inventory row, yet
the request for nights 0 and 1 is accepted, decrements the single existing
row (date 0) and persists a booking — the claim that such a request is
rejected with nothing mutated is false. -/
theorem booking_with_missing_night_succeeds :
    (∀ r ∈ (DB.mk [InvRow.mk 1 0 100 5] []).room_inventory, r.date ≠ 1) ∧
    bookEndpoint false (BookIn.mk 1 0 2 "guest" none none none 1)
        (DB.mk [InvRow.mk 1 0 100 5] []) =
      (DB.mk [InvRow.mk 1 0 100 4]
         [mkBookingRow (BookIn.mk 1 0 2 "guest" none none none 1) 1],
       BookResult.ok) :=
  ⟨by decide, by decide⟩

/-- C2 amended: for a positive quantity, the request is rejected for lack of
inventory exactly when NO night of the stay has an inventory row; when at
least one night has a row the request proceeds on the existing rows only,
so it can succeed even though other nights in the range have no row. -/
theorem noInventory_iff_no_night_has_rows (p : BookIn) (db : DB)
    (hq : 1 ≤ p.quantity) :
    (book false p db).2 = BookResult.noInventory ↔
      nightsQuery db p.room_type p.check_in p.check_out = [] := by
  rw [book_false_pos_def p db hq]
  by_cases hnil : nightsQuery db p.room_type p.check_in p.check_out = []
  · rw [if_pos hnil]
    simp [hnil]
  · rw [if_neg hnil]
    constructor
    · intro h
      exfalso
      by_cases hany : ((nightsQuery db p.room_type p.check_in
          p.check_out).any fun r => decide (r.left < p.quantity)) = true
      · rw [if_pos hany] at h
        exact absurd h (by simp)
      · rw [if_neg hany] at h
        cases happly : applyNights p.room_type p.quantity db.room_inventory
            (nightsQuery db p.room_type p.check_in p.check_out) with
        | none => rw [happly] at h; exact absurd h (by simp)
        | some inv' => rw [happly] at h; exact absurd h (by simp)
    · intro h
      exact absurd h hnil

/-- C2 amended witness: with no rows at all the request is rejected for lack
of inventory. -/
theorem noInventory_iff_no_night_has_rows_witness :
    (book false (BookIn.mk 1 0 2 "guest" none none none 1)
        (DB.mk [] [])).2 = BookResult.noInventory ↔
      nightsQuery (DB.mk [] []) 1 0 2 = [] :=
  noInventory_iff_no_night_has_rows _ _ (by decide)

/-- C5 counterexample: a payload with check_out = check_in passes pydantic
validation, is not rejected as invalid input, and comes back as the
no-inventory condition of the storage path — the claim that it is rejected
locally before any storage read is false. -/
theorem checkout_not_after_checkin_hits_storage_path :
    (BookIn.mk 1 5 5 "guest" none none none 1).pydanticValid = true ∧
    (BookIn.mk 1 5 5 "guest" none none none 1).check_out ≤
      (BookIn.mk 1 5 5 "guest" none none none 1).check_in ∧
    bookEndpoint false (BookIn.mk 1 5 5 "guest" none none none 1)
        (DB.mk [InvRow.mk 1 5 100 5] []) =
      (DB.mk [InvRow.mk 1 5 100 5] [], BookResult.noInventory) :=
  ⟨by decide, by decide, by decide⟩

/-- C5 amended: a non-positive quantity is indeed rejected by pydantic
validation before the handler (and any storage access) runs; but a request
with check_out at or before check_in is not validated locally — its empty
night query makes the storage path report the no-inventory condition. -/
theorem invalid_input_rejection_amended (mode : Bool) (p : BookIn)
    (db : DB) :
    (p.quantity ≤ 0 →
      bookEndpoint mode p db = (db, BookResult.validationError)) ∧
    (1 ≤ p.quantity → p.check_out ≤ p.check_in →
      book false p db = (db, BookResult.noInventory)) := by
  constructor
  · intro h
    unfold bookEndpoint
    rw [if_neg]
    simp only [BookIn.pydanticValid, Bool.and_eq_true, decide_eq_true_eq]
    rintro ⟨h1, -⟩
    omega
  · intro hq hco
    rw [book_false_pos_def p db hq, if_pos]
    rw [nightsQuery, List.filter_eq_nil_iff]
    intro r _
    simp only [decide_eq_true_eq]
    rintro ⟨-, h1, h2⟩
    omega

/-- C5 amended witness: quantity 0 is a validation error; an inverted date
range on an empty store is the no-inventory condition. -/
theorem invalid_input_rejection_amended_witness :
    bookEndpoint false (BookIn.mk 1 0 1 "guest" none none none 0)
        (DB.mk [] []) = (DB.mk [] [], BookResult.validationError) ∧
    book false (BookIn.mk 1 5 5 "guest" none none none 1) (DB.mk [] []) =
      (DB.mk [] [], BookResult.noInventory) :=
  ⟨(invalid_input_rejection_amended false
      (BookIn.mk 1 0 1 "guest" none none none 0) (DB.mk [] [])).1
      (by decide),
   (invalid_input_rejection_amended false
      (BookIn.mk 1 5 5 "guest" none none none 1) (DB.mk [] [])).2
      (by decide) (by decide)⟩

/-- C3: a committed booking decrements left by exactly the quantity on each
existing inventory row of every covered night (per night, not from one
pool), and appends exactly one booking row with the request's room type,
date range, quantity and guest fields. -/
theorem successful_booking_decrements_and_appends (p : BookIn) (db : DB)
    (hkeys : db.invKeysNodup) (hq : 1 ≤ p.quantity)
    (hok : (book false p db).2 = BookResult.ok) :
    (book false p db).1.room_inventory =
      db.room_inventory.map (fun r =>
        if p.covers r then { r with left := r.left - p.quantity } else r) ∧
    (book false p db).1.bookings =
      db.bookings ++ [mkBookingRow p p.quantity] := by
  rw [book_success_spec p db hkeys hq hok]
  exact ⟨rfl, rfl⟩

/-- C3 witness: booking 2 rooms for a 2-night stay decrements each of the
two nights by 2 and appends the booking row. -/
theorem successful_booking_decrements_and_appends_witness :
    (book false (BookIn.mk 1 0 2 "guest" none none none 2)
        (DB.mk [InvRow.mk 1 0 800 5, InvRow.mk 1 1 800 5]
          [])).1.room_inventory =
      (DB.mk [InvRow.mk 1 0 800 5, InvRow.mk 1 1 800 5]
        []).room_inventory.map (fun r =>
          if (BookIn.mk 1 0 2 "guest" none none none 2).covers r then
            { r with left := r.left - 2 }
          else r) ∧
    (book false (BookIn.mk 1 0 2 "guest" none none none 2)
        (DB.mk [InvRow.mk 1 0 800 5, InvRow.mk 1 1 800 5] [])).1.bookings =
      (DB.mk [InvRow.mk 1 0 800 5, InvRow.mk 1 1 800 5] []).bookings ++
        [mkBookingRow (BookIn.mk 1 0 2 "guest" none none none 2) 2] :=
  successful_booking_decrements_and_appends _ _ (by decide) (by decide)
    (by decide)

/-- C6: a committed booking touches exactly the rows of the requested room
type whose dates lie in the half-open stay interval: their left drops by the
quantity, while every other row — in particular the check_out date's row and
rows of other room types — keeps its left, and every row keeps its room
type, date and price. -/
theorem checkout_exclusive_frame (p : BookIn) (db : DB)
    (hkeys : db.invKeysNodup) (hq : 1 ≤ p.quantity)
    (hok : (book false p db).2 = BookResult.ok) :
    (book false p db).1.room_inventory.length =
      db.room_inventory.length ∧
    ∀ i (h1 : i < db.room_inventory.length)
      (h2 : i < (book false p db).1.room_inventory.length),
      ((book false p db).1.room_inventory.get ⟨i, h2⟩).room_type_id =
        (db.room_inventory.get ⟨i, h1⟩).room_type_id ∧
      ((book false p db).1.room_inventory.get ⟨i, h2⟩).date =
        (db.room_inventory.get ⟨i, h1⟩).date ∧
      ((book false p db).1.room_inventory.get ⟨i, h2⟩).price =
        (db.room_inventory.get ⟨i, h1⟩).price ∧
      (p.covers (db.room_inventory.get ⟨i, h1⟩) →
        ((book false p db).1.room_inventory.get ⟨i, h2⟩).left =
          (db.room_inventory.get ⟨i, h1⟩).left - p.quantity) ∧
      (¬ p.covers (db.room_inventory.get ⟨i, h1⟩) →
        ((book false p db).1.room_inventory.get ⟨i, h2⟩).left =
          (db.room_inventory.get ⟨i, h1⟩).left) := by
  rw [book_success_spec p db hkeys hq hok]
  refine ⟨by simp, ?_⟩
  intro i h1 h2
  simp only [List.get_eq_getElem, List.getElem_map]
  by_cases hc : p.covers db.room_inventory[i]
  · simp [hc]
  · simp [hc]

/-- C6 witness: check_in 0, check_out 2 over seeded dates 0, 1, 2 decrements
dates 0 and 1 and leaves the check_out date 2 untouched. -/
theorem checkout_exclusive_frame_witness :
    (book false (BookIn.mk 1 0 2 "guest" none none none 1)
        (DB.mk [InvRow.mk 1 0 800 5, InvRow.mk 1 1 800 5,
          InvRow.mk 1 2 800 5] [])).1.room_inventory.length =
      (DB.mk [InvRow.mk 1 0 800 5, InvRow.mk 1 1 800 5,
        InvRow.mk 1 2 800 5] []).room_inventory.length ∧
    ∀ i (h1 : i < (DB.mk [InvRow.mk 1 0 800 5, InvRow.mk 1 1 800 5,
        InvRow.mk 1 2 800 5] []).room_inventory.length)
      (h2 : i < (book false (BookIn.mk 1 0 2 "guest" none none none 1)
        (DB.mk [InvRow.mk 1 0 800 5, InvRow.mk 1 1 800 5,
          InvRow.mk 1 2 800 5] [])).1.room_inventory.length),
      ((book false (BookIn.mk 1 0 2 "guest" none none none 1)
          (DB.mk [InvRow.mk 1 0 800 5, InvRow.mk 1 1 800 5,
            InvRow.mk 1 2 800 5] [])).1.room_inventory.get
          ⟨i, h2⟩).room_type_id =
        ((DB.mk [InvRow.mk 1 0 800 5, InvRow.mk 1 1 800 5,
          InvRow.mk 1 2 800 5] []).room_inventory.get
          ⟨i, h1⟩).room_type_id ∧
      ((book false (BookIn.mk 1 0 2 "guest" none none none 1)
          (DB.mk [InvRow.mk 1 0 800 5, InvRow.mk 1 1 800 5,
            InvRow.mk 1 2 800 5] [])).1.room_inventory.get ⟨i, h2⟩).date =
        ((DB.mk [InvRow.mk 1 0 800 5, InvRow.mk 1 1 800 5,
          InvRow.mk 1 2 800 5] []).room_inventory.get ⟨i, h1⟩).date ∧
      ((book false (BookIn.mk 1 0 2 "guest" none none none 1)
          (DB.mk [InvRow.mk 1 0 800 5, InvRow.mk 1 1 800 5,
            InvRow.mk 1 2 800 5] [])).1.room_inventory.get ⟨i, h2⟩).price =
        ((DB.mk [InvRow.mk 1 0 800 5, InvRow.mk 1 1 800 5,
          InvRow.mk 1 2 800 5] []).room_inventory.get ⟨i, h1⟩).price ∧
      ((BookIn.mk 1 0 2 "guest" none none none 1).covers
          ((DB.mk [InvRow.mk 1 0 800 5, InvRow.mk 1 1 800 5,
            InvRow.mk 1 2 800 5] []).room_inventory.get ⟨i, h1⟩) →
        ((book false (BookIn.mk 1 0 2 "guest" none none none 1)
            (DB.mk [InvRow.mk 1 0 800 5, InvRow.mk 1 1 800 5,
              InvRow.mk 1 2 800 5] [])).1.room_inventory.get
            ⟨i, h2⟩).left =
          ((DB.mk [InvRow.mk 1 0 800 5, InvRow.mk 1 1 800 5,
            InvRow.mk 1 2 800 5] []).room_inventory.get ⟨i, h1⟩).left -
            1) ∧
      (¬ (BookIn.mk 1 0 2 "guest" none none none 1).covers
          ((DB.mk [InvRow.mk 1 0 800 5, InvRow.mk 1 1 800 5,
            InvRow.mk 1 2 800 5] []).room_inventory.get ⟨i, h1⟩) →
        ((book false (BookIn.mk 1 0 2 "guest" none none none 1)
            (DB.mk [InvRow.mk 1 0 800 5, InvRow.mk 1 1 800 5,
              InvRow.mk 1 2 800 5] [])).1.room_inventory.get
            ⟨i, h2⟩).left =
          ((DB.mk [InvRow.mk 1 0 800 5, InvRow.mk 1 1 800 5,
            InvRow.mk 1 2 800 5] []).room_inventory.get ⟨i, h1⟩).left) :=
  checkout_exclusive_frame (BookIn.mk 1 0 2 "guest" none none none 1)
    (DB.mk [InvRow.mk 1 0 800 5, InvRow.mk 1 1 800 5, InvRow.mk 1 2 800 5]
      []) (by decide) (by decide) (by decide)

/-- C7: the availability query leaves the state unchanged and its mapping
contains exactly the dates of the inclusive
interval from start to end that have an inventory row of the requested room
type, with that row's price and left — dates without a row are simply
absent, and both endpoints are included whenever they have a row. -/
theorem availability_inclusive_exact_and_pure (db : DB) (rt s e : Nat)
    (h : s ≤ e) :
    (availability false db rt s e).1 = db ∧
    (∀ d pr lf, (d, (pr, lf)) ∈ (availability false db rt s e).2 ↔
      ∃ r ∈ db.room_inventory, r.room_type_id = rt ∧ r.date = d ∧
        s ≤ d ∧ d ≤ e ∧ r.price = pr ∧ r.left = lf) ∧
    ((∃ r ∈ db.room_inventory, r.room_type_id = rt ∧ r.date = s) →
      ∃ pr lf, (s, (pr, lf)) ∈ (availability false db rt s e).2) ∧
    ((∃ r ∈ db.room_inventory, r.room_type_id = rt ∧ r.date = e) →
      ∃ pr lf, (e, (pr, lf)) ∈ (availability false db rt s e).2) := by
  have hmem : ∀ d pr lf,
      (d, (pr, lf)) ∈ (availability false db rt s e).2 ↔
      ∃ r ∈ db.room_inventory, r.room_type_id = rt ∧ r.date = d ∧
        s ≤ d ∧ d ≤ e ∧ r.price = pr ∧ r.left = lf := by
    intro d pr lf
    rw [availability_false_def]
    simp only [List.mem_map, List.mem_filter, decide_eq_true_eq,
      Prod.mk.injEq]
    constructor
    · rintro ⟨r, ⟨hr, hrt, hs, he⟩, hd, hpr, hlf⟩
      exact ⟨r, hr, hrt, hd, hd ▸ hs, hd ▸ he, hpr, hlf⟩
    · rintro ⟨r, hr, hrt, hd, hs, he, hpr, hlf⟩
      exact ⟨r, ⟨hr, hrt, hd ▸ hs, hd ▸ he⟩, hd, hpr, hlf⟩
  refine ⟨rfl, hmem, ?_, ?_⟩
  · rintro ⟨r, hr, hrt, hd⟩
    exact ⟨r.price, r.left,
      (hmem s r.price r.left).mpr ⟨r, hr, hrt, hd, le_refl s, h, rfl, rfl⟩⟩
  · rintro ⟨r, hr, hrt, hd⟩
    exact ⟨r.price, r.left,
      (hmem e r.price r.left).mpr ⟨r, hr, hrt, hd, h, le_refl e, rfl, rfl⟩⟩

/-- C7 witness: a two-row store over the inclusive range 0 to 1. -/
theorem availability_inclusive_exact_and_pure_witness :
    (availability false (DB.mk [InvRow.mk 1 0 800 5, InvRow.mk 1 1 820 3]
        []) 1 0 1).1 =
      DB.mk [InvRow.mk 1 0 800 5, InvRow.mk 1 1 820 3] [] ∧
    (∀ d pr lf, (d, (pr, lf)) ∈ (availability false
        (DB.mk [InvRow.mk 1 0 800 5, InvRow.mk 1 1 820 3] []) 1 0 1).2 ↔
      ∃ r ∈ (DB.mk [InvRow.mk 1 0 800 5, InvRow.mk 1 1 820 3]
          []).room_inventory, r.room_type_id = 1 ∧ r.date = d ∧
        0 ≤ d ∧ d ≤ 1 ∧ r.price = pr ∧ r.left = lf) ∧
    ((∃ r ∈ (DB.mk [InvRow.mk 1 0 800 5, InvRow.mk 1 1 820 3]
          []).room_inventory, r.room_type_id = 1 ∧ r.date = 0) →
      ∃ pr lf, ((0 : Nat), (pr, lf)) ∈ (availability false
        (DB.mk [InvRow.mk 1 0 800 5, InvRow.mk 1 1 820 3] []) 1 0 1).2) ∧
    ((∃ r ∈ (DB.mk [InvRow.mk 1 0 800 5, InvRow.mk 1 1 820 3]
          []).room_inventory, r.room_type_id = 1 ∧ r.date = 1) →
      ∃ pr lf, ((1 : Nat), (pr, lf)) ∈ (availability false
        (DB.mk [InvRow.mk 1 0 800 5, InvRow.mk 1 1 820 3] []) 1 0 1).2) :=
  availability_inclusive_exact_and_pure
    (DB.mk [InvRow.mk 1 0 800 5, InvRow.mk 1 1 820 3] []) 1 0 1
    (by decide)

/-- C9: with the DEMO_MODE flag set, the booking handler returns its demo
success message with the state — inventory and ledger — unchanged, and the
availability handler fabricates, for every database whatsoever, exactly one
entry per date of the inclusive range with price 0 and left 99. -/
theorem demo_mode_bypasses_engine (p : BookIn) (db : DB) (rt s e : Nat) :
    book true p db = (db, BookResult.demoOk) ∧
    (availability true db rt s e).1 = db ∧
    ∀ d pr lf, (d, (pr, lf)) ∈ (availability true db rt s e).2 ↔
      s ≤ d ∧ d ≤ e ∧ pr = 0 ∧ lf = 99 := by
  refine ⟨rfl, rfl, fun d pr lf => ?_⟩
  show (d, (pr, lf)) ∈ (List.range' s (e + 1 - s)).map
      (fun d => (d, ((0 : Rat), (99 : Int)))) ↔ _
  simp only [List.mem_map, List.mem_range'_1, Prod.mk.injEq]
  constructor
  · rintro ⟨d', ⟨hs, hlt⟩, hd, hpr, hlf⟩
    subst hd
    exact ⟨hs, by omega, hpr.symm, hlf.symm⟩
  · rintro ⟨hs, hle, rfl, rfl⟩
    exact ⟨d, ⟨hs, by omega⟩, rfl, rfl, rfl⟩
